import Mathlib

/-!
Shallow embedding of the Meettool measurement core (`src/utils.py` together with
the measurement / label-reconciliation loop of `src/app.py`).

Numbers that the Python code holds as floats are embedded as rationals (`ℚ`)
wherever the code only adds, multiplies, divides and compares them; Euclidean
lengths produced by `math.hypot` require a square root and live in `ℝ`.
-/

namespace Meettool

/-! ### String helpers (Python `in` on strings, `str.lower`) -/

/-- Bool test that the first char list is an initial segment of the second. -/
def chars_match : List Char → List Char → Bool
  | [], _ => true
  | _ :: _, [] => false
  | a :: as, b :: bs => a == b && chars_match as bs

/-- Bool test that `pat` occurs contiguously inside the second list. -/
def char_list_has_sub (pat : List Char) : List Char → Bool
  | [] => pat.isEmpty
  | c :: rest => chars_match pat (c :: rest) || char_list_has_sub pat rest

/-- Embedding of Python `pat in s` for strings. -/
def str_contains (s pat : String) : Bool :=
  char_list_has_sub pat.data s.data

/-- Embedding of Python `str.lower` (ASCII, which is all the code compares). -/
def lower_str (s : String) : String :=
  String.mk (s.data.map Char.toLower)

/-! ### Shape descriptors (`src/utils.py`)

A Fabric.js-style object is a dict of optional fields; `obj.get(k, d)` is
embedded as `Option.getD`.  Absent numeric fields default to `0` or `1`
exactly as in the source. -/

structure ShapeObj where
  type? : Option String := none
  /-- the `__tool` override key -/
  tool_override? : Option String := none
  left? : Option ℚ := none
  top? : Option ℚ := none
  width? : Option ℚ := none
  height? : Option ℚ := none
  scaleX? : Option ℚ := none
  scaleY? : Option ℚ := none
  angle? : Option ℚ := none
  x1? : Option ℚ := none
  y1? : Option ℚ := none
  x2? : Option ℚ := none
  y2? : Option ℚ := none
  radius? : Option ℚ := none
  originX? : Option String := none
  originY? : Option String := none
  id? : Option String := none
  color? : Option String := none
  deriving DecidableEq

/-- Embedding of `_shape_tool` (utils.py lines 64-79). -/
def shape_tool (o : ShapeObj) : String :=
  let forced_tool := lower_str (o.tool_override?.getD "")
  if forced_tool = "line" ∨ forced_tool = "circle" then forced_tool
  else
    let shape_type := lower_str (o.type?.getD "")
    if str_contains shape_type "line" then "line"
    else if str_contains shape_type "circle" then "circle"
    else if o.x1?.isSome ∧ o.y1?.isSome ∧ o.x2?.isSome ∧ o.y2?.isSome then "line"
    else if o.radius?.isSome then "circle"
    else "unknown"

/-! ### Line endpoint recovery (`_extract_line_endpoints_canvas`, utils.py 82-125) -/

structure Pt where
  x : ℚ
  y : ℚ
  deriving DecidableEq, Inhabited

/-- The three candidate endpoint pairs built by `_extract_line_endpoints_canvas`:
raw (absolute) coordinates, coordinates relative to `left/top`, and coordinates
relative to the object's center. -/
def line_candidates (o : ShapeObj) : List (Pt × Pt) :=
  let scale_x := o.scaleX?.getD 1
  let scale_y := o.scaleY?.getD 1
  let left := o.left?.getD 0
  let top := o.top?.getD 0
  let width := |o.width?.getD 0 * scale_x|
  let height := |o.height?.getD 0 * scale_y|
  let x1 := o.x1?.getD 0 * scale_x
  let y1 := o.y1?.getD 0 * scale_y
  let x2 := o.x2?.getD 0 * scale_x
  let y2 := o.y2?.getD 0 * scale_y
  let origin_x := lower_str (o.originX?.getD "left")
  let origin_y := lower_str (o.originY?.getD "top")
  let raw_start : Pt := ⟨x1, y1⟩
  let raw_end : Pt := ⟨x2, y2⟩
  let rel_start : Pt := ⟨left + x1, top + y1⟩
  let rel_end : Pt := ⟨left + x2, top + y2⟩
  let center_x := if origin_x = "center" then left else left + width / 2
  let center_y := if origin_y = "center" then top else top + height / 2
  let ctr_start : Pt := ⟨center_x + x1, center_y + y1⟩
  let ctr_end : Pt := ⟨center_x + x2, center_y + y2⟩
  [(raw_start, raw_end), (rel_start, rel_end), (ctr_start, ctr_end)]

/-- Embedding of `math.hypot`. -/
noncomputable def hypot (dx dy : ℚ) : ℝ :=
  Real.sqrt ((dx : ℝ) ^ 2 + (dy : ℝ) ^ 2)

/-- The out-of-canvas penalty accumulated by `_score`: `200` for each endpoint
with a coordinate below `-50`. -/
def pair_penalty (pr : Pt × Pt) : ℚ :=
  (if pr.1.x < -50 ∨ pr.1.y < -50 then 200 else 0) +
  (if pr.2.x < -50 ∨ pr.2.y < -50 then 200 else 0)

/-- The Euclidean length a candidate pair implies, `math.hypot(bx - ax, by - ay)`. -/
noncomputable def pair_len (pr : Pt × Pt) : ℝ :=
  hypot (pr.2.x - pr.1.x) (pr.2.y - pr.1.y)

/-- Embedding of the inner `_score` function: degenerate candidates score
`-1e9`, others score length minus penalty. -/
noncomputable def pair_score (pr : Pt × Pt) : ℝ :=
  if pair_len pr ≤ 0 then -(1000000000 : ℝ)
  else pair_len pr - (pair_penalty pr : ℝ)

/-- Embedding of Python `max(first :: rest, key)`: keeps the first element on
ties, replaces the running best only on a strictly larger key. -/
noncomputable def py_max (key : Pt × Pt → ℝ) (first : Pt × Pt) (rest : List (Pt × Pt)) : Pt × Pt :=
  rest.foldl (fun best x => if key best < key x then x else best) first

/-- Embedding of `_extract_line_endpoints_canvas`: score the three candidates
and return the maximizer. -/
noncomputable def extract_line_endpoints_canvas (o : ShapeObj) : Pt × Pt :=
  let cs := line_candidates o
  py_max pair_score cs.headI cs.tail

/-! ### Circle extraction (`_extract_circle_canvas`, utils.py 128-152) -/

/-- Embedding of `_extract_circle_canvas`: returns `(cx, cy, |r|)`. -/
def extract_circle_canvas (o : ShapeObj) : ℚ × ℚ × ℚ :=
  let left := o.left?.getD 0
  let top := o.top?.getD 0
  let radius := o.radius?.getD 0
  let scale_x := o.scaleX?.getD 1
  let scale_y := o.scaleY?.getD 1
  let rx := radius * scale_x
  let ry := radius * scale_y
  let r := (|rx| + |ry|) / 2
  let origin_x := lower_str (o.originX?.getD "left")
  let origin_y := lower_str (o.originY?.getD "top")
  let cx := if origin_x = "center" then left else left + rx
  let cy := if origin_y = "center" then top else top + ry
  (cx, cy, |r|)

/-! ### Canonical geometry and measurement (utils.py 155-207) -/

inductive Geom where
  | line (x1 y1 x2 y2 : ℚ)
  | circle (cx cy r : ℚ)
  deriving DecidableEq

/-- Embedding of `extract_geometry`: classify the descriptor and produce
canonical geometry in canvas coordinates, or `none`. -/
noncomputable def extract_geometry (o : ShapeObj) : Option Geom :=
  let tool := shape_tool o
  if tool = "line" then
    let se := extract_line_endpoints_canvas o
    some (.line se.1.x se.1.y se.2.x se.2.y)
  else if tool = "circle" then
    let c := extract_circle_canvas o
    some (.circle c.1 c.2.1 c.2.2)
  else none

/-- Embedding of `compute_measurement`: line length or circle diameter. -/
noncomputable def compute_measurement (g : Geom) : ℝ :=
  match g with
  | .line x1 y1 x2 y2 => hypot (x2 - x1) (y2 - y1)
  | .circle _ _ r => 2 * (r : ℝ)

/-- Embedding of `_geometry_to_image_space`: lines scale each axis
independently, circles scale the radius by the average factor. -/
def geometry_to_image_space (g : Geom) (sx sy : ℚ) : Geom :=
  match g with
  | .line x1 y1 x2 y2 => .line (x1 * sx) (y1 * sy) (x2 * sx) (y2 * sy)
  | .circle cx cy r =>
    let avg_s := (sx + sy) / 2
    .circle (cx * sx) (cy * sy) (r * avg_s)

/-- The pixel measurement `annotate_image` computes for one object: extract,
map to image space, measure; `0` when there is no geometry. -/
noncomputable def image_measurement (o : ShapeObj) (sx sy : ℚ) : ℝ :=
  match extract_geometry o with
  | some g => compute_measurement (geometry_to_image_space g sx sy)
  | none => 0

/-- One iteration of the `annotate_image` object loop (utils.py 277-286):
skip objects without geometry or with non-positive measurement, otherwise
record the drawn (image-space geometry, pixel measurement) pair. -/
noncomputable def annotate_step (sx sy : ℚ) (acc : List (Geom × ℝ)) (obj : ShapeObj) :
    List (Geom × ℝ) :=
  match extract_geometry obj with
  | none => acc
  | some geom =>
    let geom_img := geometry_to_image_space geom sx sy
    let measurement_px := compute_measurement geom_img
    if measurement_px ≤ 0 then acc else acc ++ [(geom_img, measurement_px)]

/-- The per-object filtering loop of `annotate_image`: the list of pairs
actually drawn. -/
noncomputable def annotate_items (objects : List ShapeObj) (sx sy : ℚ) : List (Geom × ℝ) :=
  objects.foldl (annotate_step sx sy) []

/-! ### Settings persistence (`load_scale` / `save_scale`, utils.py 19-40)

The state of `settings.json` is embedded as an explicit sum of the failure
modes the code distinguishes. -/

inductive SettingsFile (α : Type) where
  | missing
  | unreadable
  | badJson
  | keyMissing
  | valueNonNumeric
  | value (v : α)
  deriving DecidableEq

/-- The result of `float(data.get("scale_um_per_px", default_scale))`: `none`
when the read/parse/convert raises (caught by the source), `some` otherwise. -/
def settings_float {α : Type} (f : SettingsFile α) (d : α) : Option α :=
  match f with
  | .missing => none
  | .unreadable => none
  | .badJson => none
  | .keyMissing => some d
  | .valueNonNumeric => none
  | .value v => some v

/-- Embedding of `load_scale`: the stored value when it converts to a float
greater than zero, the default in every other case. -/
def load_scale (default_scale : ℚ) (f : SettingsFile ℚ) : ℚ :=
  match settings_float f default_scale with
  | some scale => if scale > 0 then scale else default_scale
  | none => default_scale

/-- Embedding of `save_scale`: writing produces a well-formed settings file
holding exactly the key and value. -/
def save_scale {α : Type} (scale_um_per_px : α) : SettingsFile α :=
  .value scale_um_per_px

/-! ### CSV serialization (`csv_rows` / `csv_row`, utils.py 325-353)

Python's `:.Nf` fixed-point formatting is embedded over `ℚ` with
round-half-to-even, matching float formatting on representable values.
`datetime.now()` is an explicit `timestamp` parameter. -/

/-- Round to the nearest integer, ties to even. -/
def round_half_even (q : ℚ) : ℤ :=
  let f : ℤ := ⌊q⌋
  let r : ℚ := q - f
  if r < 1 / 2 then f
  else if 1 / 2 < r then f + 1
  else if f % 2 = 0 then f else f + 1

/-- Fixed-point decimal rendering with `prec` digits, Python `:.{prec}f`. -/
def fmt_fixed (prec : ℕ) (q : ℚ) : String :=
  let m := round_half_even (q * (10 : ℚ) ^ prec)
  let sign := if m < 0 then "-" else ""
  let n := m.natAbs
  let ip := n / 10 ^ prec
  let fp := n % 10 ^ prec
  let fpStr := toString fp
  let padded := String.mk (List.replicate (prec - fpStr.length) '0') ++ fpStr
  sign ++ toString ip ++ "." ++ padded

def csv_header : String :=
  "filename,tool,length_px/diameter_px,length_um/diameter_um,scale_um_per_px,timestamp\n"

structure CsvMeasurement where
  tool : String
  measurement_px : ℚ
  measurement_um : ℚ
  deriving DecidableEq

/-- Embedding of `csv_rows`: header plus one newline-terminated row per
measurement. -/
def csv_rows (filename : String) (measurements : List CsvMeasurement)
    (scale_um_per_px : ℚ) (timestamp : String) : String :=
  let lines := [csv_header] ++ measurements.map (fun m =>
    filename ++ "," ++ m.tool ++ "," ++ fmt_fixed 4 m.measurement_px ++ "," ++
      fmt_fixed 4 m.measurement_um ++ "," ++ fmt_fixed 9 scale_um_per_px ++ "," ++
      timestamp ++ "\n")
  String.join lines

/-- Embedding of `csv_row`, the single-row helper: delegates to `csv_rows`. -/
def csv_row (filename tool : String) (measurement_px measurement_um scale_um_per_px : ℚ)
    (timestamp : String) : String :=
  csv_rows filename [⟨tool, measurement_px, measurement_um⟩] scale_um_per_px timestamp

/-! ### Labels and the reconciliation pass (`src/app.py` lines 175-233)

`st.session_state.labels_by_shape_id` is a Python dict keyed by shape id; it is
embedded as an insertion-ordered association list with dict get / set
semantics.  Label dicts are embedded as a structure; the keys that the freshly
created label does not carry (`scaleX`, `scaleY`, `angle`, `width`, `height`)
are `Option` fields. -/

structure Label where
  type : String := "textbox"
  text : String := ""
  left : ℚ := 0
  top : ℚ := 0
  fontSize : ℚ := 50
  fill : String := "#ff0000"
  scaleX? : Option ℚ := none
  scaleY? : Option ℚ := none
  angle? : Option ℚ := none
  width? : Option ℚ := none
  height? : Option ℚ := none
  selectable : Bool := true
  evented : Bool := true
  editable : Bool := true
  hasControls : Bool := true
  hasBorders : Bool := true
  isLabel : Bool := true
  labelId : String := ""
  forShapeId : String := ""
  id : String := ""
  deriving DecidableEq

/-- The label dict created at app.py lines 208-224 for a shape without one. -/
def mk_default_label (shape_id : String) (lx ly : ℚ) (text fill : String) : Label :=
  { type := "textbox", text := text, left := lx, top := ly, fontSize := 50, fill := fill,
    scaleX? := none, scaleY? := none, angle? := none, width? := none, height? := none,
    selectable := true, evented := true, editable := true, hasControls := true,
    hasBorders := true, isLabel := true, labelId := "label_" ++ shape_id,
    forShapeId := shape_id, id := "label_" ++ shape_id }

/-- `PALETTE.get(color_key, "#ff0000")` from app.py. -/
def palette_get (k : String) : String :=
  if k = "red" then "#ff0000"
  else if k = "blue" then "#0066ff"
  else if k = "yellow" then "#ffd400"
  else if k = "green" then "#00b050"
  else if k = "purple" then "#7f00ff"
  else if k = "orange" then "#ff7a00"
  else "#ff0000"

/-- Inverse of the embedding of floats into `ℝ`: the rational value of a real
when it has one.  Used only to express decimal formatting of measured reals. -/
noncomputable def rat_of_real (x : ℝ) : ℚ :=
  @dite ℚ (∃ q : ℚ, (q : ℝ) = x) (Classical.dec _) (fun h => h.choose) (fun _ => 0)

/-- The label text `f"{measurement_um:.2f} µm"`. -/
noncomputable def format_um (x : ℝ) : String :=
  fmt_fixed 2 (rat_of_real x) ++ " µm"

/-- Modelled from the spec: `label_anchor_canvas` is imported by `app.py` from
`utils` but absent from the provided `utils.py`.  Per spec section 4.4 the
default anchor is the line's terminal endpoint offset by `(+12, -12)`, and for
a circle the point just outside its upper-right, `(cx + r + 12, cy - r - 12)`. -/
def label_anchor_canvas (g : Geom) : ℚ × ℚ :=
  match g with
  | .line _ _ x2 y2 => (x2 + 12, y2 - 12)
  | .circle cx cy r => (cx + r + 12, cy - r - 12)

/-- Modelled from the spec: `clamp_label_canvas` is imported by `app.py` from
`utils` but absent from the provided `utils.py`.  Per spec section 4.4 the
canvas-space variant constrains the anchor into
`[margin, dimension - margin]` on each axis. -/
def clamp_label_canvas (x y canvas_w canvas_h margin : ℚ) : ℚ × ℚ :=
  (max margin (min x (canvas_w - margin)), max margin (min y (canvas_h - margin)))

/-- Modelled from the spec: `measurement_px_from_geometry` is imported by
`app.py` from `utils` but absent from the provided `utils.py`.  Per spec
section 4.2, a line measures the Euclidean distance between its endpoints
after independently scaling each axis, and a circle measures the diameter
`2 * mean(rx_scaled, ry_scaled)` (the canonical circle holds one radius). -/
noncomputable def measurement_px_from_geometry (g : Geom) (sx sy : ℚ) : ℝ :=
  match g with
  | .line x1 y1 x2 y2 => hypot ((x2 - x1) * sx) ((y2 - y1) * sy)
  | .circle _ _ r => ((2 * ((|r * sx| + |r * sy|) / 2) : ℚ) : ℝ)

structure Meas where
  index : ℕ
  shape_id : String
  tool : String
  measurement_px : ℝ
  measurement_um : ℝ
  color : String

structure PassConfig where
  canvas_w : ℚ
  canvas_h : ℚ
  display_scale : ℚ
  scale_um_per_px : ℝ

structure PassState where
  measurements : List Meas
  current_shape_ids : List String
  labels : List (String × Label)

/-- `str(shape.get("id", f"shape_{idx}"))` from the measurement loop. -/
def shape_sid (idx : ℕ) (o : ShapeObj) : String :=
  o.id?.getD ("shape_" ++ toString idx)

def pair_sids (l : List (ℕ × ShapeObj)) : List String :=
  l.map fun p => shape_sid p.1 p.2

/-- The shape ids the measurement loop would assign, in order. -/
def assigned_ids (shapes : List ShapeObj) : List String :=
  pair_sids (List.enumFrom 1 shapes)

/-- Dict lookup on the association list (first matching key). -/
def store_get : List (String × Label) → String → Option Label
  | [], _ => none
  | kv :: rest, k => if kv.1 = k then some kv.2 else store_get rest k

/-- Dict assignment: replace the first matching key or append. -/
def store_set : List (String × Label) → String → Label → List (String × Label)
  | [], k, v => [(k, v)]
  | kv :: rest, k, v => if kv.1 = k then (k, v) :: rest else kv :: store_set rest k v

/-- `measurement_px = measurement_px_from_geometry(geom, 1.0, 1.0) /
max(display_scale, 1e-12)` (app.py lines 183-184). -/
noncomputable def measured_px (cfg : PassConfig) (g : Geom) : ℝ :=
  measurement_px_from_geometry g 1 1 / ((max cfg.display_scale (1 / 1000000000000) : ℚ) : ℝ)

/-- `"Line" if geom["type"] == "line" else "Circle"`. -/
def tool_name : Geom → String
  | .line _ _ _ _ => "Line"
  | .circle _ _ _ => "Circle"

/-- The measurement dict appended for one surviving shape (app.py 193-202). -/
noncomputable def meas_of (cfg : PassConfig) (idx : ℕ) (o : ShapeObj) (g : Geom) : Meas :=
  { index := idx, shape_id := shape_sid idx o, tool := tool_name g,
    measurement_px := measured_px cfg g,
    measurement_um := measured_px cfg g * cfg.scale_um_per_px,
    color := o.color?.getD "red" }

/-- The label create-or-refresh step (app.py 204-228): a missing label is
created at the clamped default anchor; an existing one keeps its position and
size and only has `text` and `fill` rewritten. -/
noncomputable def step_label (cfg : PassConfig) (g : Geom) (sid : String) (um : ℝ)
    (color_key : String) (labels : List (String × Label)) : List (String × Label) :=
  match store_get labels sid with
  | none =>
    let a := label_anchor_canvas g
    let c := clamp_label_canvas a.1 a.2 cfg.canvas_w cfg.canvas_h 5
    store_set labels sid (mk_default_label sid c.1 c.2 (format_um um) (palette_get color_key))
  | some lab =>
    store_set labels sid { lab with text := format_um um, fill := palette_get color_key }

/-- One iteration of the measurement loop (app.py 177-228) for `(idx, shape)`. -/
noncomputable def pass_step (cfg : PassConfig) (st : PassState) (p : ℕ × ShapeObj) : PassState :=
  match extract_geometry p.2 with
  | none => st
  | some geom =>
    if measured_px cfg geom ≤ 0 then st
    else
      { measurements := st.measurements ++ [meas_of cfg p.1 p.2 geom],
        current_shape_ids := st.current_shape_ids ++ [shape_sid p.1 p.2],
        labels := step_label cfg geom (shape_sid p.1 p.2)
          (meas_of cfg p.1 p.2 geom).measurement_um (meas_of cfg p.1 p.2 geom).color st.labels }

/-- The full reconciliation pass: the measurement loop over
`enumerate(shapes, start=1)` followed by orphan-label removal
(app.py 230-233). -/
noncomputable def reconcile (cfg : PassConfig) (shapes : List ShapeObj)
    (labels0 : List (String × Label)) : PassState :=
  let st := (List.enumFrom 1 shapes).foldl (pass_step cfg) ⟨[], [], labels0⟩
  { st with labels := st.labels.filter fun kv => decide (kv.1 ∈ st.current_shape_ids) }

/-! ### Calibration workflow (`src/app.py` lines 239-255) -/

inductive CalibView where
  | awaiting
  | invalid
  | candidate (c : ℝ)

/-- The calibration block's reading of the live measurements: awaiting input
without a line, invalid on a non-positive latest line, otherwise the candidate
scale `known_length_um / line_px` from the latest line by draw order. -/
noncomputable def calibration_view (measurements : List Meas) (known_length_um : ℝ) : CalibView :=
  let line_rows := measurements.filter fun m => m.tool == "Line"
  match line_rows.getLast? with
  | none => .awaiting
  | some latest_line =>
    if latest_line.measurement_px ≤ 0 then .invalid
    else .candidate (known_length_um / latest_line.measurement_px)

structure CalibSession where
  scale_um_per_px : ℝ
  settings : SettingsFile ℝ
  calibration_mode : Bool

/-- The "Save scale" confirmation (app.py 251-255): commit the candidate as
the session scale, persist it via `save_scale`, and leave calibration mode. -/
def commit_calibration (_st : CalibSession) (calibrated_scale : ℝ) : CalibSession :=
  { scale_um_per_px := calibrated_scale,
    settings := save_scale calibrated_scale,
    calibration_mode := false }

/-! ### Helper lemmas -/

lemma rat_of_real_coe (q : ℚ) : rat_of_real (q : ℝ) = q := by
  unfold rat_of_real
  rw [dif_pos ⟨q, rfl⟩]
  exact Rat.cast_injective (Exists.choose_spec (⟨q, rfl⟩ : ∃ p : ℚ, (p : ℝ) = (q : ℝ)))

lemma store_get_set_self (l : List (String × Label)) (k : String) (v : Label) :
    store_get (store_set l k v) k = some v := by
  induction l with
  | nil => simp [store_set, store_get]
  | cons kv rest ih =>
    by_cases h : kv.1 = k
    · simp [store_set, store_get, h]
    · simp [store_set, store_get, h, ih]

lemma store_get_set_ne (l : List (String × Label)) (k k' : String) (v : Label)
    (h : k' ≠ k) : store_get (store_set l k v) k' = store_get l k' := by
  induction l with
  | nil =>
    simp only [store_set, store_get]
    rw [if_neg fun hc => h hc.symm]
  | cons kv rest ih =>
    simp only [store_set]
    by_cases hk : kv.1 = k
    · rw [if_pos hk]
      simp only [store_get]
      rw [if_neg fun hc => h hc.symm, if_neg fun hc => h (hk ▸ hc).symm]
    · rw [if_neg hk]
      simp only [store_get]
      by_cases hk' : kv.1 = k'
      · rw [if_pos hk', if_pos hk']
      · rw [if_neg hk', if_neg hk']
        exact ih

lemma store_get_mem (l : List (String × Label)) (k : String) (v : Label) :
    store_get l k = some v → (k, v) ∈ l := by
  induction l with
  | nil => intro h; simp [store_get] at h
  | cons kv rest ih =>
    intro h
    simp only [store_get] at h
    by_cases hk : kv.1 = k
    · rw [if_pos hk] at h
      injection h with h2
      have hkv : kv = (k, v) := by
        obtain ⟨a, b⟩ := kv
        simp only at hk h2
        simp [hk, h2]
      rw [hkv]
      exact List.mem_cons_self _ _
    · rw [if_neg hk] at h
      exact List.mem_cons_of_mem _ (ih h)

lemma store_set_mem (l : List (String × Label)) (k : String) (v : Label) :
    ∀ kv ∈ store_set l k v, kv ∈ l ∨ kv = (k, v) := by
  induction l with
  | nil => simp [store_set]
  | cons hd rest ih =>
    intro kv hkv
    by_cases hk : hd.1 = k
    · simp [store_set, hk] at hkv
      rcases hkv with h | h
      · right; simp [h]
      · left; exact List.mem_cons_of_mem _ h
    · simp [store_set, hk] at hkv
      rcases hkv with h | h
      · left; simp [h]
      · rcases ih kv h with h2 | h2
        · left; exact List.mem_cons_of_mem _ h2
        · right; exact h2

lemma store_get_filter (l : List (String × Label)) (ids : List String) (k : String) :
    store_get (l.filter fun kv => decide (kv.1 ∈ ids)) k =
      if k ∈ ids then store_get l k else none := by
  induction l with
  | nil => simp [store_get]
  | cons kv rest ih =>
    by_cases hmem : kv.1 ∈ ids
    · by_cases hk : kv.1 = k
      · subst hk
        simp [List.filter, hmem, store_get, ih]
      · simp [List.filter, hmem, store_get, hk, ih]
    · by_cases hk : kv.1 = k
      · subst hk
        simp [List.filter, hmem, store_get, ih]
      · simp [List.filter, hmem, store_get, hk, ih]

lemma py_max_mem (f : Pt × Pt → ℝ) (a : Pt × Pt) (l : List (Pt × Pt)) :
    py_max f a l ∈ a :: l := by
  induction l generalizing a with
  | nil => simp [py_max]
  | cons x rest ih =>
    by_cases h : f a < f x
    · have step : py_max f a (x :: rest) = py_max f x rest := by
        simp [py_max, if_pos h]
      rw [step]
      rcases List.mem_cons.mp (ih x) with hh | hh
      · rw [hh]
        exact List.mem_cons_of_mem _ (List.mem_cons_self _ _)
      · exact List.mem_cons_of_mem _ (List.mem_cons_of_mem _ hh)
    · have step : py_max f a (x :: rest) = py_max f a rest := by
        simp [py_max, if_neg h]
      rw [step]
      rcases List.mem_cons.mp (ih a) with hh | hh
      · rw [hh]
        exact List.mem_cons_self _ _
      · exact List.mem_cons_of_mem _ (List.mem_cons_of_mem _ hh)

lemma py_max_le (f : Pt × Pt → ℝ) (a : Pt × Pt) (l : List (Pt × Pt)) :
    ∀ x ∈ a :: l, f x ≤ f (py_max f a l) := by
  induction l generalizing a with
  | nil =>
    intro x hx
    simp at hx
    simp [py_max, hx]
  | cons y rest ih =>
    intro x hx
    by_cases h : f a < f y
    · have step : py_max f a (y :: rest) = py_max f y rest := by
        simp [py_max, if_pos h]
      rw [step]
      rcases List.mem_cons.mp hx with hh | hh
      · subst hh
        exact le_trans (le_of_lt h) (ih y y (List.mem_cons_self y rest))
      · rcases List.mem_cons.mp hh with hh2 | hh2
        · rw [hh2]
          exact ih y y (List.mem_cons_self y rest)
        · exact ih y x (List.mem_cons_of_mem _ hh2)
    · have step : py_max f a (y :: rest) = py_max f a rest := by
        simp [py_max, if_neg h]
      rw [step]
      rcases List.mem_cons.mp hx with hh | hh
      · rw [hh]
        exact ih a a (List.mem_cons_self a rest)
      · rcases List.mem_cons.mp hh with hh2 | hh2
        · rw [hh2]
          exact le_trans (le_of_not_lt h) (ih a a (List.mem_cons_self a rest))
        · exact ih a x (List.mem_cons_of_mem _ hh2)

lemma py_max_pair (f : Pt × Pt → ℝ) (a b c : Pt × Pt)
    (h1 : f b ≤ f a) (h2 : f c ≤ f a) : py_max f a [b, c] = a := by
  simp [py_max, List.foldl, if_neg (not_lt.mpr h1), if_neg (not_lt.mpr h2)]

lemma hypot_nonneg (dx dy : ℚ) : 0 ≤ hypot dx dy :=
  Real.sqrt_nonneg _

lemma pair_penalty_nonneg (pr : Pt × Pt) : 0 ≤ pair_penalty pr := by
  unfold pair_penalty
  split <;> split <;> norm_num

lemma pair_penalty_le (pr : Pt × Pt) : pair_penalty pr ≤ 400 := by
  unfold pair_penalty
  split <;> split <;> norm_num

lemma pair_score_of_pos (pr : Pt × Pt) (h : 0 < pair_len pr) :
    pair_score pr = pair_len pr - (pair_penalty pr : ℝ) := by
  unfold pair_score
  rw [if_neg (not_le.mpr h)]

lemma pair_score_of_nonpos (pr : Pt × Pt) (h : pair_len pr ≤ 0) :
    pair_score pr = -(1000000000 : ℝ) := by
  unfold pair_score
  rw [if_pos h]

lemma pair_sids_cons (p : ℕ × ShapeObj) (l : List (ℕ × ShapeObj)) :
    pair_sids (p :: l) = shape_sid p.1 p.2 :: pair_sids l := rfl

lemma step_label_get_ne (cfg : PassConfig) (g : Geom) (sid : String) (um : ℝ)
    (key : String) (labels : List (String × Label)) (sid' : String) (h : sid' ≠ sid) :
    store_get (step_label cfg g sid um key labels) sid' = store_get labels sid' := by
  unfold step_label
  cases hg : store_get labels sid <;> simp only <;> exact store_get_set_ne _ _ _ _ h

lemma step_label_get_none (cfg : PassConfig) (g : Geom) (sid : String) (um : ℝ)
    (key : String) (labels : List (String × Label)) (h : store_get labels sid = none) :
    ∃ lx ly, store_get (step_label cfg g sid um key labels) sid =
      some (mk_default_label sid lx ly (format_um um) (palette_get key)) := by
  unfold step_label
  rw [h]
  exact ⟨_, _, store_get_set_self _ _ _⟩

lemma step_label_get_some (cfg : PassConfig) (g : Geom) (sid : String) (um : ℝ)
    (key : String) (labels : List (String × Label)) (lab : Label)
    (h : store_get labels sid = some lab) :
    store_get (step_label cfg g sid um key labels) sid =
      some { lab with text := format_um um, fill := palette_get key } := by
  unfold step_label
  rw [h]
  exact store_get_set_self _ _ _

lemma step_label_wf (cfg : PassConfig) (g : Geom) (sid : String) (um : ℝ)
    (key : String) (labels : List (String × Label))
    (hwf : ∀ kv ∈ labels, (kv : String × Label).2.forShapeId = kv.1) :
    ∀ kv ∈ step_label cfg g sid um key labels, (kv : String × Label).2.forShapeId = kv.1 := by
  intro kv hkv
  unfold step_label at hkv
  cases hg : store_get labels sid with
  | none =>
    rw [hg] at hkv
    simp only at hkv
    rcases store_set_mem _ _ _ kv hkv with hm | hm
    · exact hwf kv hm
    · rw [hm]
      simp [mk_default_label]
  | some lab =>
    rw [hg] at hkv
    simp only at hkv
    rcases store_set_mem _ _ _ kv hkv with hm | hm
    · exact hwf kv hm
    · rw [hm]
      simp only
      exact hwf (sid, lab) (store_get_mem _ _ _ hg)

lemma pass_step_eq_or (cfg : PassConfig) (st : PassState) (p : ℕ × ShapeObj) :
    pass_step cfg st p = st ∨
    ∃ geom, extract_geometry p.2 = some geom ∧ 0 < measured_px cfg geom ∧
      pass_step cfg st p =
        { measurements := st.measurements ++ [meas_of cfg p.1 p.2 geom],
          current_shape_ids := st.current_shape_ids ++ [shape_sid p.1 p.2],
          labels := step_label cfg geom (shape_sid p.1 p.2)
            (meas_of cfg p.1 p.2 geom).measurement_um (meas_of cfg p.1 p.2 geom).color
            st.labels } := by
  unfold pass_step
  cases hg : extract_geometry p.2 with
  | none => left; rfl
  | some geom =>
    by_cases hpx : measured_px cfg geom ≤ 0
    · left
      simp only [if_pos hpx]
    · right
      exact ⟨geom, rfl, not_le.mp hpx, by simp only [if_neg hpx]⟩

lemma fold_growth (cfg : PassConfig) (l : List (ℕ × ShapeObj)) (st : PassState) :
    ∃ ms ids,
      (l.foldl (pass_step cfg) st).measurements = st.measurements ++ ms ∧
      (l.foldl (pass_step cfg) st).current_shape_ids = st.current_shape_ids ++ ids ∧
      (∀ m ∈ ms, m.shape_id ∈ pair_sids l ∧ 0 < m.measurement_px) ∧
      (∀ s ∈ ids, s ∈ pair_sids l ∧ ∃ m ∈ ms, m.shape_id = s) := by
  induction l generalizing st with
  | nil => exact ⟨[], [], by simp, by simp, by simp, by simp⟩
  | cons p rest ih =>
    simp only [List.foldl_cons]
    rcases pass_step_eq_or cfg st p with heq | ⟨geom, _, hpx, heq⟩
    · rw [heq]
      rcases ih st with ⟨ms, ids, h1, h2, h3, h4⟩
      refine ⟨ms, ids, h1, h2, fun m hm => ?_, fun s hs => ?_⟩
      · exact ⟨by rw [pair_sids_cons]; exact List.mem_cons_of_mem _ (h3 m hm).1, (h3 m hm).2⟩
      · exact ⟨by rw [pair_sids_cons]; exact List.mem_cons_of_mem _ (h4 s hs).1, (h4 s hs).2⟩
    · rw [heq]
      rcases ih _ with ⟨ms, ids, h1, h2, h3, h4⟩
      refine ⟨meas_of cfg p.1 p.2 geom :: ms, shape_sid p.1 p.2 :: ids, ?_, ?_, ?_, ?_⟩
      · rw [h1]
        simp
      · rw [h2]
        simp
      · intro m hm
        rcases List.mem_cons.mp hm with hh | hh
        · subst hh
          exact ⟨by rw [pair_sids_cons]; exact List.mem_cons_self _ _, hpx⟩
        · exact ⟨by rw [pair_sids_cons]; exact List.mem_cons_of_mem _ (h3 m hh).1, (h3 m hh).2⟩
      · intro s hs
        rcases List.mem_cons.mp hs with hh | hh
        · subst hh
          refine ⟨by rw [pair_sids_cons]; exact List.mem_cons_self _ _, ?_⟩
          exact ⟨meas_of cfg p.1 p.2 geom, List.mem_cons_self _ _, rfl⟩
        · refine ⟨by rw [pair_sids_cons]; exact List.mem_cons_of_mem _ (h4 s hh).1, ?_⟩
          rcases (h4 s hh).2 with ⟨m, hm, hmeq⟩
          exact ⟨m, List.mem_cons_of_mem _ hm, hmeq⟩

lemma fold_untouched (cfg : PassConfig) (l : List (ℕ × ShapeObj)) (st : PassState)
    (sid : String) (h : sid ∉ pair_sids l) :
    store_get (l.foldl (pass_step cfg) st).labels sid = store_get st.labels sid := by
  induction l generalizing st with
  | nil => rfl
  | cons p rest ih =>
    rw [pair_sids_cons] at h
    have hne : sid ≠ shape_sid p.1 p.2 := fun hc => h (hc ▸ List.mem_cons_self _ _)
    have htl : sid ∉ pair_sids rest := fun hc => h (List.mem_cons_of_mem _ hc)
    simp only [List.foldl_cons]
    rcases pass_step_eq_or cfg st p with heq | ⟨geom, _, _, heq⟩
    · rw [heq]
      exact ih st htl
    · rw [heq, ih _ htl]
      exact step_label_get_ne _ _ _ _ _ _ _ hne

lemma fold_wf (cfg : PassConfig) (l : List (ℕ × ShapeObj)) (st : PassState)
    (h : ∀ kv ∈ st.labels, (kv : String × Label).2.forShapeId = kv.1) :
    ∀ kv ∈ (l.foldl (pass_step cfg) st).labels, (kv : String × Label).2.forShapeId = kv.1 := by
  induction l generalizing st with
  | nil => exact h
  | cons p rest ih =>
    simp only [List.foldl_cons]
    rcases pass_step_eq_or cfg st p with heq | ⟨geom, _, _, heq⟩
    · rw [heq]
      exact ih st h
    · rw [heq]
      exact ih _ (step_label_wf _ _ _ _ _ _ h)

/-- Master tracking lemma for the measurement loop: when the assigned shape
ids are distinct, any measurement carrying `sid` pins down the loop's effect on
the label stored under `sid`: an existing label is refreshed in `text`/`fill`
only, a missing one is created as a default label. -/
lemma fold_label_of_meas (cfg : PassConfig) (l : List (ℕ × ShapeObj)) (st : PassState)
    (sid : String) (hnd : (pair_sids l).Nodup)
    (hm0 : ∀ m ∈ st.measurements, (m : Meas).shape_id ≠ sid) :
    ∀ m ∈ (l.foldl (pass_step cfg) st).measurements, (m : Meas).shape_id = sid →
      sid ∈ (l.foldl (pass_step cfg) st).current_shape_ids ∧
      ((∃ L, store_get st.labels sid = some L ∧
          store_get (l.foldl (pass_step cfg) st).labels sid =
            some { L with text := format_um m.measurement_um, fill := palette_get m.color })
       ∨ (store_get st.labels sid = none ∧ ∃ lx ly,
            store_get (l.foldl (pass_step cfg) st).labels sid =
              some (mk_default_label sid lx ly (format_um m.measurement_um)
                (palette_get m.color)))) := by
  induction l generalizing st with
  | nil =>
    intro m hm hms
    exact absurd hms (hm0 m hm)
  | cons p rest ih =>
    rw [pair_sids_cons] at hnd
    have hnot : shape_sid p.1 p.2 ∉ pair_sids rest := (List.nodup_cons.mp hnd).1
    have hnd' : (pair_sids rest).Nodup := (List.nodup_cons.mp hnd).2
    simp only [List.foldl_cons]
    rcases pass_step_eq_or cfg st p with heq | ⟨geom, _, hpx, heq⟩
    · rw [heq]
      exact ih st hnd' hm0
    · rw [heq]
      by_cases hsid : shape_sid p.1 p.2 = sid
      · intro m hm hms
        have hun : store_get
            (rest.foldl (pass_step cfg)
              { measurements := st.measurements ++ [meas_of cfg p.1 p.2 geom],
                current_shape_ids := st.current_shape_ids ++ [shape_sid p.1 p.2],
                labels := step_label cfg geom (shape_sid p.1 p.2)
                  (meas_of cfg p.1 p.2 geom).measurement_um
                  (meas_of cfg p.1 p.2 geom).color st.labels }).labels sid =
            store_get (step_label cfg geom (shape_sid p.1 p.2)
              (meas_of cfg p.1 p.2 geom).measurement_um
              (meas_of cfg p.1 p.2 geom).color st.labels) sid := by
          exact fold_untouched cfg rest _ sid (hsid ▸ hnot)
        rcases fold_growth cfg rest
            { measurements := st.measurements ++ [meas_of cfg p.1 p.2 geom],
              current_shape_ids := st.current_shape_ids ++ [shape_sid p.1 p.2],
              labels := step_label cfg geom (shape_sid p.1 p.2)
                (meas_of cfg p.1 p.2 geom).measurement_um
                (meas_of cfg p.1 p.2 geom).color st.labels } with
          ⟨ms, ids, h1, h2, h3, _⟩
        have hidmem : sid ∈ (rest.foldl (pass_step cfg)
            { measurements := st.measurements ++ [meas_of cfg p.1 p.2 geom],
              current_shape_ids := st.current_shape_ids ++ [shape_sid p.1 p.2],
              labels := step_label cfg geom (shape_sid p.1 p.2)
                (meas_of cfg p.1 p.2 geom).measurement_um
                (meas_of cfg p.1 p.2 geom).color st.labels }).current_shape_ids := by
          rw [h2]
          apply List.mem_append_left
          simp only
          exact List.mem_append_right _ (by rw [hsid]; exact List.mem_singleton.mpr rfl)
        refine ⟨hidmem, ?_⟩
        have hm' : m ∈ (st.measurements ++ [meas_of cfg p.1 p.2 geom]) ++ ms := by
          rw [h1] at hm
          dsimp only at hm
          exact hm
        have hmm : m = meas_of cfg p.1 p.2 geom := by
          rcases List.mem_append.mp hm' with hm2 | hm2
          · rcases List.mem_append.mp hm2 with hm3 | hm3
            · exact absurd hms (hm0 m hm3)
            · exact List.mem_singleton.mp hm3
          · exfalso
            have := (h3 m hm2).1
            rw [hms, ← hsid] at this
            exact hnot this
        rw [hun, hmm]
        cases h0 : store_get st.labels sid with
        | none =>
          right
          refine ⟨rfl, ?_⟩
          rcases step_label_get_none cfg geom (shape_sid p.1 p.2)
              (meas_of cfg p.1 p.2 geom).measurement_um
              (meas_of cfg p.1 p.2 geom).color st.labels (hsid ▸ h0) with ⟨lx, ly, hget⟩
          refine ⟨lx, ly, ?_⟩
          rw [hsid] at hget
          rw [hsid]
          exact hget
        | some lab =>
          left
          refine ⟨lab, rfl, ?_⟩
          have hget := step_label_get_some cfg geom (shape_sid p.1 p.2)
            (meas_of cfg p.1 p.2 geom).measurement_um
            (meas_of cfg p.1 p.2 geom).color st.labels lab (hsid ▸ h0)
          rw [hsid] at hget
          rw [hsid]
          exact hget
      · have hm0' : ∀ m ∈ st.measurements ++ [meas_of cfg p.1 p.2 geom],
            (m : Meas).shape_id ≠ sid := by
          intro m hm
          rcases List.mem_append.mp hm with hm2 | hm2
          · exact hm0 m hm2
          · rw [List.mem_singleton.mp hm2]
            exact hsid
        intro m hm hms
        rcases ih _ hnd' hm0' m hm hms with ⟨hid, hcase⟩
        refine ⟨hid, ?_⟩
        have heqget : store_get (step_label cfg geom (shape_sid p.1 p.2)
            (meas_of cfg p.1 p.2 geom).measurement_um
            (meas_of cfg p.1 p.2 geom).color st.labels) sid = store_get st.labels sid :=
          step_label_get_ne _ _ _ _ _ _ _ (fun hc => hsid hc.symm)
        simp only at hcase
        rw [heqget] at hcase
        exact hcase

lemma annotate_step_cases (sx sy : ℚ) (acc : List (Geom × ℝ)) (o : ShapeObj) :
    annotate_step sx sy acc o = acc ∨
    ∃ g px, 0 < px ∧ annotate_step sx sy acc o = acc ++ [(g, px)] := by
  unfold annotate_step
  cases hg : extract_geometry o with
  | none => left; rfl
  | some geom =>
    by_cases h : compute_measurement (geometry_to_image_space geom sx sy) ≤ 0
    · left
      simp only [if_pos h]
    · right
      exact ⟨geometry_to_image_space geom sx sy,
        compute_measurement (geometry_to_image_space geom sx sy), not_le.mp h,
        by simp only [if_neg h]⟩

lemma annotate_fold_mem (sx sy : ℚ) (objs : List ShapeObj) (acc : List (Geom × ℝ)) :
    ∀ it ∈ objs.foldl (annotate_step sx sy) acc, it ∈ acc ∨ 0 < it.2 := by
  induction objs generalizing acc with
  | nil => intro it hit; exact Or.inl hit
  | cons o rest ih =>
    intro it hit
    simp only [List.foldl_cons] at hit
    rcases annotate_step_cases sx sy acc o with heq | ⟨g, px, hpx, heq⟩
    · rw [heq] at hit
      exact ih acc it hit
    · rw [heq] at hit
      rcases ih _ it hit with h | h
      · rcases List.mem_append.mp h with h2 | h2
        · exact Or.inl h2
        · right
          rw [List.mem_singleton.mp h2]
          exact hpx
      · exact Or.inr h

lemma reconcile_measurements (cfg : PassConfig) (shapes : List ShapeObj)
    (labels0 : List (String × Label)) :
    (reconcile cfg shapes labels0).measurements =
      ((List.enumFrom 1 shapes).foldl (pass_step cfg) ⟨[], [], labels0⟩).measurements := rfl

lemma reconcile_ids (cfg : PassConfig) (shapes : List ShapeObj)
    (labels0 : List (String × Label)) :
    (reconcile cfg shapes labels0).current_shape_ids =
      ((List.enumFrom 1 shapes).foldl (pass_step cfg) ⟨[], [], labels0⟩).current_shape_ids := rfl

lemma reconcile_labels (cfg : PassConfig) (shapes : List ShapeObj)
    (labels0 : List (String × Label)) :
    (reconcile cfg shapes labels0).labels =
      ((List.enumFrom 1 shapes).foldl (pass_step cfg) ⟨[], [], labels0⟩).labels.filter
        (fun kv => decide (kv.1 ∈
          ((List.enumFrom 1 shapes).foldl (pass_step cfg)
            ⟨[], [], labels0⟩).current_shape_ids)) := rfl

/-! ### Claim theorems -/

/-- C9: for every `default_scale > 0` and every state of the settings store
(missing, unreadable, unparseable, key absent, value non-numeric, value not
positive, or a positive stored value), `load_scale` returns a positive value
without raising: the stored value exactly when it converts to a float greater
than zero, and `default_scale` in every other case. -/
theorem claim9_load_scale_total_fallback (default_scale : ℚ) (f : SettingsFile ℚ)
    (hd : 0 < default_scale) :
    0 < load_scale default_scale f ∧
    (∀ v, f = .value v → 0 < v → load_scale default_scale f = v) ∧
    (∀ v, f = .value v → ¬0 < v → load_scale default_scale f = default_scale) ∧
    ((∀ v, f ≠ .value v) → load_scale default_scale f = default_scale) := by
  refine ⟨?_, ?_, ?_, ?_⟩
  · cases f with
    | value v =>
      by_cases hv : v > 0
      · simp only [load_scale, settings_float]
        rw [if_pos hv]
        exact hv
      · simp only [load_scale, settings_float]
        rw [if_neg hv]
        exact hd
    | missing => exact hd
    | unreadable => exact hd
    | badJson => exact hd
    | valueNonNumeric => exact hd
    | keyMissing =>
      simp only [load_scale, settings_float]
      rw [if_pos hd]
      exact hd
  · intro v hv hvpos
    subst hv
    simp only [load_scale, settings_float]
    rw [if_pos hvpos]
  · intro v hv hvneg
    subst hv
    simp only [load_scale, settings_float]
    rw [if_neg hvneg]
  · intro hfalse
    cases f with
    | value v => exact absurd rfl (hfalse v)
    | missing => rfl
    | unreadable => rfl
    | badJson => rfl
    | valueNonNumeric => rfl
    | keyMissing =>
      simp only [load_scale, settings_float]
      rw [if_pos hd]

/-- Witness for C9 at a concrete default and a non-positive stored value. -/
theorem claim9_load_scale_total_fallback_witness :
    0 < (1 : ℚ) ∧
    (0 < load_scale 1 (SettingsFile.value (-2)) ∧
     (∀ v : ℚ, (SettingsFile.value (-2) : SettingsFile ℚ) = SettingsFile.value v → 0 < v →
        load_scale 1 (SettingsFile.value (-2)) = v) ∧
     (∀ v : ℚ, (SettingsFile.value (-2) : SettingsFile ℚ) = SettingsFile.value v → ¬0 < v →
        load_scale 1 (SettingsFile.value (-2)) = 1) ∧
     ((∀ v : ℚ, (SettingsFile.value (-2) : SettingsFile ℚ) ≠ SettingsFile.value v) →
        load_scale 1 (SettingsFile.value (-2)) = 1)) :=
  ⟨by norm_num, claim9_load_scale_total_fallback 1 (.value (-2)) (by norm_num)⟩

/-- C10: `csv_row` returns exactly the string `csv_rows` returns for the
corresponding single-element measurement list at the same timestamp, namely
the header line followed by one newline-terminated data row. -/
theorem claim10_csv_row_refines_csv_rows (filename tool : String)
    (measurement_px measurement_um scale_um_per_px : ℚ) (timestamp : String) :
    csv_row filename tool measurement_px measurement_um scale_um_per_px timestamp =
      csv_rows filename [⟨tool, measurement_px, measurement_um⟩] scale_um_per_px timestamp ∧
    csv_rows filename [⟨tool, measurement_px, measurement_um⟩] scale_um_per_px timestamp =
      csv_header ++ (filename ++ "," ++ tool ++ "," ++ fmt_fixed 4 measurement_px ++ "," ++
        fmt_fixed 4 measurement_um ++ "," ++ fmt_fixed 9 scale_um_per_px ++ "," ++
        timestamp ++ "\n") := by
  constructor
  · rfl
  · simp [csv_rows, String.join]

/-- C5: with no live line the calibration workflow reports the awaiting-input
state; with a latest line of non-positive pixel length it reports invalid and
computes no candidate; otherwise the candidate equals `known_length_um`
divided by the pixel measurement of the last line in draw order, and
confirmation commits exactly that candidate as the session scale, persists it
to the settings store, and exits calibration mode. -/
theorem claim5_calibration_candidate_and_commit (measurements : List Meas)
    (known_length_um : ℝ) (st : CalibSession) :
    (measurements.filter (fun m => m.tool == "Line") = [] →
      calibration_view measurements known_length_um = .awaiting) ∧
    (∀ latest, (measurements.filter (fun m => m.tool == "Line")).getLast? = some latest →
      (latest.measurement_px ≤ 0 →
        calibration_view measurements known_length_um = .invalid) ∧
      (0 < latest.measurement_px →
        calibration_view measurements known_length_um =
          .candidate (known_length_um / latest.measurement_px) ∧
        commit_calibration st (known_length_um / latest.measurement_px) =
          { scale_um_per_px := known_length_um / latest.measurement_px,
            settings := SettingsFile.value (known_length_um / latest.measurement_px),
            calibration_mode := false })) := by
  constructor
  · intro h
    simp [calibration_view, h]
  · intro latest hlast
    constructor
    · intro hle
      simp [calibration_view, hlast, if_pos hle]
    · intro hpos
      refine ⟨?_, rfl⟩
      simp [calibration_view, hlast, if_neg (not_le.mpr hpos)]

def calib_meas : Meas :=
  { index := 1, shape_id := "s1", tool := "Line", measurement_px := 150,
    measurement_um := 300, color := "red" }

def calib_session : CalibSession :=
  { scale_um_per_px := 1, settings := .missing, calibration_mode := true }

/-- Witness for C5: a single live line of 150 px and a known length of 400 µm
produce the candidate `400 / 150` and commit it. -/
theorem claim5_calibration_candidate_and_commit_witness :
    ([calib_meas].filter (fun m => m.tool == "Line")).getLast? = some calib_meas ∧
    0 < calib_meas.measurement_px ∧
    (calibration_view [calib_meas] 400 = .candidate (400 / calib_meas.measurement_px) ∧
     commit_calibration calib_session (400 / calib_meas.measurement_px) =
       { scale_um_per_px := 400 / calib_meas.measurement_px,
         settings := SettingsFile.value (400 / calib_meas.measurement_px),
         calibration_mode := false }) := by
  refine ⟨rfl, by norm_num [calib_meas], ?_⟩
  exact ((claim5_calibration_candidate_and_commit [calib_meas] 400 calib_session).2
    calib_meas rfl).2 (by norm_num [calib_meas])

/-- C7: every measurement row produced by a recomputation pass has a strictly
positive pixel measurement, and every shape actually drawn by the raster
annotation loop has a strictly positive pixel measurement; non-positive
results are silently skipped in both places. -/
theorem claim7_measurements_positive (cfg : PassConfig) (shapes : List ShapeObj)
    (labels0 : List (String × Label)) (objects : List ShapeObj) (sx sy : ℚ) :
    ((reconcile cfg shapes labels0).measurements.Forall fun m => 0 < m.measurement_px) ∧
    ((annotate_items objects sx sy).Forall fun it => 0 < it.2) := by
  constructor
  · rw [List.forall_iff_forall_mem]
    intro m hm
    rw [reconcile_measurements] at hm
    rcases fold_growth cfg (List.enumFrom 1 shapes) ⟨[], [], labels0⟩ with
      ⟨ms, ids, h1, _, h3, _⟩
    rw [h1] at hm
    dsimp only at hm
    rw [List.nil_append] at hm
    exact (h3 m hm).2
  · rw [List.forall_iff_forall_mem]
    intro it hit
    rcases annotate_fold_mem sx sy objects [] it hit with h | h
    · exact absurd h (List.not_mem_nil it)
    · exact h

/-- C8: after a reconciliation pass over a well-formed label store (each label
stored under its own `forShapeId`), every stored label's `forShapeId` is the
identifier of a currently live measured shape, and an identifier absent from
the live set is referenced by zero labels. -/
theorem claim8_no_orphan_labels (cfg : PassConfig) (shapes : List ShapeObj)
    (labels0 : List (String × Label))
    (hwf : ∀ kv ∈ labels0, (kv : String × Label).2.forShapeId = kv.1) :
    (∀ kv ∈ (reconcile cfg shapes labels0).labels,
       (kv : String × Label).2.forShapeId = kv.1 ∧
       kv.2.forShapeId ∈ (reconcile cfg shapes labels0).current_shape_ids ∧
       ∃ m ∈ (reconcile cfg shapes labels0).measurements,
         (m : Meas).shape_id = kv.2.forShapeId) ∧
    (∀ sid, sid ∉ (reconcile cfg shapes labels0).current_shape_ids →
       ∀ kv ∈ (reconcile cfg shapes labels0).labels,
         (kv : String × Label).2.forShapeId ≠ sid) := by
  have hmain : ∀ kv ∈ (reconcile cfg shapes labels0).labels,
      (kv : String × Label).2.forShapeId = kv.1 ∧
      kv.2.forShapeId ∈ (reconcile cfg shapes labels0).current_shape_ids ∧
      ∃ m ∈ (reconcile cfg shapes labels0).measurements,
        (m : Meas).shape_id = kv.2.forShapeId := by
    intro kv hkv
    rw [reconcile_labels] at hkv
    have hfm := List.mem_filter.mp hkv
    have hmemlbl : kv ∈ ((List.enumFrom 1 shapes).foldl (pass_step cfg)
        ⟨[], [], labels0⟩).labels := hfm.1
    have hkey : kv.1 ∈ ((List.enumFrom 1 shapes).foldl (pass_step cfg)
        ⟨[], [], labels0⟩).current_shape_ids := of_decide_eq_true hfm.2
    have hw : kv.2.forShapeId = kv.1 :=
      fold_wf cfg (List.enumFrom 1 shapes) ⟨[], [], labels0⟩ hwf kv hmemlbl
    refine ⟨hw, by rw [reconcile_ids, hw]; exact hkey, ?_⟩
    rcases fold_growth cfg (List.enumFrom 1 shapes) ⟨[], [], labels0⟩ with
      ⟨ms, ids, h1, h2, _, h4⟩
    have hkey2 : kv.1 ∈ ids := by
      rw [h2] at hkey
      dsimp only at hkey
      rw [List.nil_append] at hkey
      exact hkey
    rcases (h4 kv.1 hkey2).2 with ⟨m, hmm, hmeq⟩
    refine ⟨m, ?_, by rw [hw]; exact hmeq⟩
    rw [reconcile_measurements, h1]
    dsimp only
    rw [List.nil_append]
    exact hmm
  refine ⟨hmain, ?_⟩
  intro sid hsid kv hkv hceq
  rcases hmain kv hkv with ⟨_, hmem, _⟩
  rw [hceq] at hmem
  exact hsid hmem

/-- C1: in a reconciliation pass with distinct assigned shape ids, a live,
measured shape with a stored label keeps that label's `left`, `top`,
`fontSize`, `scaleX`, `scaleY`, `angle`, `width` and `height` unchanged while
its `text` is refreshed to the formatted new measurement and its `fill` to the
shape's palette color (so `fill` only changes when the color mapping changed);
and a default-placed label appears only for a measured live shape that had no
stored label. -/
theorem claim1_label_refresh_preserves_user_fields (cfg : PassConfig)
    (shapes : List ShapeObj) (labels0 : List (String × Label)) (sid : String) (L : Label)
    (hnd : (assigned_ids shapes).Nodup)
    (hL : store_get labels0 sid = some L) :
    (∀ m ∈ (reconcile cfg shapes labels0).measurements, (m : Meas).shape_id = sid →
      ∃ L2, store_get (reconcile cfg shapes labels0).labels sid = some L2 ∧
        L2.left = L.left ∧ L2.top = L.top ∧ L2.fontSize = L.fontSize ∧
        L2.scaleX? = L.scaleX? ∧ L2.scaleY? = L.scaleY? ∧ L2.angle? = L.angle? ∧
        L2.width? = L.width? ∧ L2.height? = L.height? ∧
        L2.text = format_um m.measurement_um ∧ L2.fill = palette_get m.color ∧
        (palette_get m.color = L.fill → L2.fill = L.fill)) ∧
    (∀ sid2 L2, store_get labels0 sid2 = none →
      store_get (reconcile cfg shapes labels0).labels sid2 = some L2 →
      sid2 ∈ (reconcile cfg shapes labels0).current_shape_ids ∧
      ∃ m ∈ (reconcile cfg shapes labels0).measurements, (m : Meas).shape_id = sid2 ∧
        ∃ lx ly, L2 = mk_default_label sid2 lx ly (format_um m.measurement_um)
          (palette_get m.color)) := by
  have hn : (pair_sids (List.enumFrom 1 shapes)).Nodup := hnd
  have hbase : ∀ sid', ∀ m ∈ (PassState.mk [] [] labels0).measurements,
      (m : Meas).shape_id ≠ sid' := by
    intro sid' m hm
    exact absurd hm (List.not_mem_nil m)
  constructor
  · intro m hm hms
    rw [reconcile_measurements] at hm
    rcases fold_label_of_meas cfg (List.enumFrom 1 shapes) ⟨[], [], labels0⟩ sid hn
        (hbase sid) m hm hms with ⟨hid, hcase⟩
    rcases hcase with ⟨L', hL', hget⟩ | ⟨hnone, _⟩
    · have hLL : L' = L := by
        have h3 : some L' = some L := by
          rw [← hL]
          exact hL'.symm
        exact Option.some.inj h3
      subst hLL
      refine ⟨{ L' with text := format_um m.measurement_um, fill := palette_get m.color },
        ?_, rfl, rfl, rfl, rfl, rfl, rfl, rfl, rfl, rfl, rfl, fun h => h⟩
      rw [reconcile_labels, store_get_filter, if_pos hid]
      exact hget
    · have : store_get labels0 sid = none := hnone
      rw [this] at hL
      cases hL
  · intro sid2 L2 h0 hget2
    rw [reconcile_labels, store_get_filter] at hget2
    by_cases hmem : sid2 ∈ ((List.enumFrom 1 shapes).foldl (pass_step cfg)
        ⟨[], [], labels0⟩).current_shape_ids
    · rw [if_pos hmem] at hget2
      refine ⟨by rw [reconcile_ids]; exact hmem, ?_⟩
      rcases fold_growth cfg (List.enumFrom 1 shapes) ⟨[], [], labels0⟩ with
        ⟨ms, ids, h1, h2, _, h4⟩
      have hkey2 : sid2 ∈ ids := by
        rw [h2] at hmem
        dsimp only at hmem
        rw [List.nil_append] at hmem
        exact hmem
      rcases (h4 sid2 hkey2).2 with ⟨m, hmm, hmeq⟩
      have hmmem : m ∈ ((List.enumFrom 1 shapes).foldl (pass_step cfg)
          ⟨[], [], labels0⟩).measurements := by
        rw [h1]
        dsimp only
        rw [List.nil_append]
        exact hmm
      rcases fold_label_of_meas cfg (List.enumFrom 1 shapes) ⟨[], [], labels0⟩ sid2 hn
          (hbase sid2) m hmmem hmeq with ⟨_, hcase⟩
      rcases hcase with ⟨L', hL', _⟩ | ⟨_, lx, ly, hgetF⟩
      · have : store_get labels0 sid2 = some L' := hL'
        rw [this] at h0
        cases h0
      · refine ⟨m, by rw [reconcile_measurements]; exact hmmem, hmeq, lx, ly, ?_⟩
        rw [hgetF] at hget2
        injection hget2 with h2
        exact h2.symm
    · rw [if_neg hmem] at hget2
      cases hget2

def c1_cfg : PassConfig :=
  { canvas_w := 900, canvas_h := 600, display_scale := 1, scale_um_per_px := 2 }

def c1_shape : ShapeObj :=
  { type? := some "circle", radius? := some 5, left? := some 100, top? := some 100,
    id? := some "s1", color? := some "red" }

def c1_label : Label :=
  { text := "old", left := 7, top := 8, fontSize := 50, fill := "#ff0000",
    forShapeId := "s1", labelId := "label_s1", id := "label_s1" }

def c1_labels : List (String × Label) := [("s1", c1_label)]

/-- Witness for C1: a single live circle with id `s1` and a stored label. -/
theorem claim1_label_refresh_preserves_user_fields_witness :
    (assigned_ids [c1_shape]).Nodup ∧
    store_get c1_labels "s1" = some c1_label ∧
    ((∀ m ∈ (reconcile c1_cfg [c1_shape] c1_labels).measurements,
        (m : Meas).shape_id = "s1" →
      ∃ L2, store_get (reconcile c1_cfg [c1_shape] c1_labels).labels "s1" = some L2 ∧
        L2.left = c1_label.left ∧ L2.top = c1_label.top ∧
        L2.fontSize = c1_label.fontSize ∧
        L2.scaleX? = c1_label.scaleX? ∧ L2.scaleY? = c1_label.scaleY? ∧
        L2.angle? = c1_label.angle? ∧
        L2.width? = c1_label.width? ∧ L2.height? = c1_label.height? ∧
        L2.text = format_um m.measurement_um ∧ L2.fill = palette_get m.color ∧
        (palette_get m.color = c1_label.fill → L2.fill = c1_label.fill)) ∧
    (∀ sid2 L2, store_get c1_labels sid2 = none →
      store_get (reconcile c1_cfg [c1_shape] c1_labels).labels sid2 = some L2 →
      sid2 ∈ (reconcile c1_cfg [c1_shape] c1_labels).current_shape_ids ∧
      ∃ m ∈ (reconcile c1_cfg [c1_shape] c1_labels).measurements,
        (m : Meas).shape_id = sid2 ∧
        ∃ lx ly, L2 = mk_default_label sid2 lx ly (format_um m.measurement_um)
          (palette_get m.color))) :=
  ⟨by decide, rfl,
    claim1_label_refresh_preserves_user_fields c1_cfg [c1_shape] c1_labels "s1" c1_label
      (by decide) rfl⟩

lemma shape_tool_cases (o : ShapeObj) :
    shape_tool o = "line" ∨ shape_tool o = "circle" ∨ shape_tool o = "unknown" := by
  simp only [shape_tool]
  by_cases h1 : lower_str (o.tool_override?.getD "") = "line" ∨
      lower_str (o.tool_override?.getD "") = "circle"
  · rw [if_pos h1]
    rcases h1 with h | h
    · exact Or.inl h
    · exact Or.inr (Or.inl h)
  · rw [if_neg h1]
    by_cases h2 : str_contains (lower_str (o.type?.getD "")) "line" = true
    · rw [if_pos h2]
      exact Or.inl rfl
    · rw [if_neg h2]
      by_cases h3 : str_contains (lower_str (o.type?.getD "")) "circle" = true
      · rw [if_pos h3]
        exact Or.inr (Or.inl rfl)
      · rw [if_neg h3]
        by_cases h4 : o.x1?.isSome = true ∧ o.y1?.isSome = true ∧
            o.x2?.isSome = true ∧ o.y2?.isSome = true
        · rw [if_pos h4]
          exact Or.inl rfl
        · rw [if_neg h4]
          by_cases h5 : o.radius?.isSome = true
          · rw [if_pos h5]
            exact Or.inr (Or.inl rfl)
          · rw [if_neg h5]
            exact Or.inr (Or.inr rfl)

def c4_zero_circle : ShapeObj :=
  { type? := some "circle", radius? := some 0, left? := some 10, top? := some 10 }

def c4_unknown : ShapeObj := { type? := some "textbox" }

/-- C4 counterexample: a recognized circle descriptor that declares zero
extent (radius `0`). `extract_geometry` does not return "no geometry" for it;
it returns a degenerate circle. -/
theorem claim4_counterexample_zero_radius_circle :
    extract_geometry c4_zero_circle ≠ none ∧
    extract_geometry c4_zero_circle = some (Geom.circle 10 10 0) := by
  have ht : shape_tool c4_zero_circle = "circle" := by decide
  have hc : extract_circle_canvas c4_zero_circle = (10, 10, 0) := by
    simp only [extract_circle_canvas, c4_zero_circle, Option.getD_some, Option.getD_none]
    rw [if_neg (by decide : ¬(lower_str "left" = "center")),
      if_neg (by decide : ¬(lower_str "top" = "center"))]
    norm_num
  have h : extract_geometry c4_zero_circle = some (Geom.circle 10 10 0) := by
    simp only [extract_geometry]
    rw [ht, if_neg (by decide : ¬(("circle" : String) = "line")), if_pos rfl, hc]
  exact ⟨by rw [h]; simp, h⟩

/-- C4 (amended): `extract_geometry` returns "no geometry" exactly for
descriptors that are neither a recognized line nor circle encoding; a
recognized circle declaring zero extent still yields a geometry, but one whose
measurement is `0`, and a shape without geometry contributes nothing to the
measurement pass — in all cases without raising. -/
theorem claim4_amended_none_iff_unrecognized (o : ShapeObj) (cfg : PassConfig)
    (st : PassState) (idx : ℕ) :
    (extract_geometry o = none ↔ shape_tool o = "unknown") ∧
    (shape_tool o = "circle" → o.radius?.getD 0 = 0 →
      ∃ g, extract_geometry o = some g ∧ compute_measurement g = 0) ∧
    (extract_geometry o = none → pass_step cfg st (idx, o) = st) := by
  refine ⟨⟨?_, ?_⟩, ?_, ?_⟩
  · intro h
    rcases shape_tool_cases o with ht | ht | ht
    · simp [extract_geometry, ht] at h
    · simp [extract_geometry, ht] at h
    · exact ht
  · intro ht
    simp [extract_geometry, ht]
  · intro ht hr
    refine ⟨.circle (extract_circle_canvas o).1 (extract_circle_canvas o).2.1
      (extract_circle_canvas o).2.2, by simp [extract_geometry, ht], ?_⟩
    have h3 : (extract_circle_canvas o).2.2 = 0 := by
      simp [extract_circle_canvas, hr]
    simp [compute_measurement, h3]
  · intro h
    simp [pass_step, h]

/-- Witness for C4 (amended): a zero-radius circle yields a zero-measurement
geometry, while an unrecognized descriptor yields none and leaves the pass
state untouched. -/
theorem claim4_amended_none_iff_unrecognized_witness :
    shape_tool c4_zero_circle = "circle" ∧ c4_zero_circle.radius?.getD 0 = 0 ∧
    (∃ g, extract_geometry c4_zero_circle = some g ∧ compute_measurement g = 0) ∧
    shape_tool c4_unknown = "unknown" ∧ extract_geometry c4_unknown = none ∧
    pass_step c1_cfg ⟨[], [], []⟩ (1, c4_unknown) = ⟨[], [], []⟩ := by
  have h1 : shape_tool c4_zero_circle = "circle" := by decide
  have h2 : c4_zero_circle.radius?.getD 0 = 0 := rfl
  have h4 : shape_tool c4_unknown = "unknown" := by decide
  have h5 : extract_geometry c4_unknown = none :=
    (claim4_amended_none_iff_unrecognized c4_unknown c1_cfg ⟨[], [], []⟩ 1).1.mpr h4
  exact ⟨h1, h2,
    (claim4_amended_none_iff_unrecognized c4_zero_circle c1_cfg ⟨[], [], []⟩ 1).2.1 h1 h2,
    h4, h5,
    (claim4_amended_none_iff_unrecognized c4_unknown c1_cfg ⟨[], [], []⟩ 1).2.2 h5⟩

def c2_circle : ShapeObj :=
  { type? := some "circle", radius? := some 1, scaleX? := some 1, scaleY? := some 3,
    left? := some 0, top? := some 0, originX? := some "center", originY? := some "center" }

/-- C2 counterexample: with `radius = 1`, `scaleX = 1`, `scaleY = 3` and
canvas-to-source factors `(2, 4)`, the code measures
`(|rx| + |ry|)/2 × (sx + sy)/2 × 2 = 12`, not the claimed
`2 × mean(|radius·scaleX|·sx, |radius·scaleY|·sy) = 14`. -/
theorem claim2_counterexample_nonuniform_scales :
    image_measurement c2_circle 2 4 = 12 ∧
    (2 : ℝ) * ((|(1 : ℝ) * 1| * 2 + |(1 : ℝ) * 3| * 4) / 2) = 14 ∧
    image_measurement c2_circle 2 4 ≠
      2 * ((|(1 : ℝ) * 1| * 2 + |(1 : ℝ) * 3| * 4) / 2) := by
  have ht : shape_tool c2_circle = "circle" := by decide
  have hc : extract_circle_canvas c2_circle = (0, 0, 2) := by
    simp only [extract_circle_canvas, c2_circle, Option.getD_some, Option.getD_none]
    rw [if_pos (by decide : lower_str "center" = "center"),
      if_pos (by decide : lower_str "center" = "center")]
    norm_num
  have hg : extract_geometry c2_circle = some (.circle 0 0 2) := by
    simp only [extract_geometry]
    rw [ht, if_neg (by decide : ¬(("circle" : String) = "line")), if_pos rfl, hc]
  have h1 : image_measurement c2_circle 2 4 = 12 := by
    rw [image_measurement, hg]
    simp only [geometry_to_image_space, compute_measurement]
    norm_num
  refine ⟨h1, by norm_num, ?_⟩
  rw [h1]
  norm_num

/-- C2 (amended): for every circle descriptor the pixel measurement equals
`2 × mean(|radius·scaleX|, |radius·scaleY|) × mean(scale_x, scale_y)` — the
radii are averaged before the axis factors, which agrees with the claim's
`2 × mean(rx_scaled, ry_scaled)` whenever `scale_x = scale_y` or
`scaleX = scaleY` — and the measurement is invariant under swapping the two
radii (swapping `scaleX` and `scaleY`). -/
theorem claim2_amended_circle_diameter (o : ShapeObj) (sx sy : ℚ)
    (h : shape_tool o = "circle") :
    image_measurement o sx sy =
      ((2 * ((|o.radius?.getD 0 * o.scaleX?.getD 1| + |o.radius?.getD 0 * o.scaleY?.getD 1|) / 2)
        * ((sx + sy) / 2) : ℚ) : ℝ) ∧
    image_measurement { o with scaleX? := o.scaleY?, scaleY? := o.scaleX? } sx sy =
      image_measurement o sx sy := by
  have main : ∀ o' : ShapeObj, shape_tool o' = "circle" →
      image_measurement o' sx sy =
        ((2 * ((|o'.radius?.getD 0 * o'.scaleX?.getD 1| +
          |o'.radius?.getD 0 * o'.scaleY?.getD 1|) / 2) * ((sx + sy) / 2) : ℚ) : ℝ) := by
    intro o' h'
    have hr3 : (extract_circle_canvas o').2.2 =
        (|o'.radius?.getD 0 * o'.scaleX?.getD 1| + |o'.radius?.getD 0 * o'.scaleY?.getD 1|) / 2 := by
      simp only [extract_circle_canvas]
      exact abs_of_nonneg (by positivity)
    have hg : extract_geometry o' = some (.circle (extract_circle_canvas o').1
        (extract_circle_canvas o').2.1 (extract_circle_canvas o').2.2) := by
      simp [extract_geometry, h']
    rw [image_measurement, hg]
    simp only [geometry_to_image_space, compute_measurement, hr3]
    push_cast
    ring
  have hswap : shape_tool { o with scaleX? := o.scaleY?, scaleY? := o.scaleX? } = "circle" := h
  refine ⟨main o h, ?_⟩
  rw [main o h, main _ hswap]
  show ((2 * ((|o.radius?.getD 0 * o.scaleY?.getD 1| + |o.radius?.getD 0 * o.scaleX?.getD 1|) / 2)
    * ((sx + sy) / 2) : ℚ) : ℝ) = _
  push_cast
  ring

/-- Witness for C2 (amended), at the counterexample circle. -/
theorem claim2_amended_circle_diameter_witness :
    shape_tool c2_circle = "circle" ∧
    (image_measurement c2_circle 2 4 =
      ((2 * ((|c2_circle.radius?.getD 0 * c2_circle.scaleX?.getD 1| +
        |c2_circle.radius?.getD 0 * c2_circle.scaleY?.getD 1|) / 2) * ((2 + 4 : ℚ) / 2) : ℚ) : ℝ) ∧
     image_measurement { c2_circle with scaleX? := c2_circle.scaleY?, scaleY? := c2_circle.scaleX? } 2 4 =
       image_measurement c2_circle 2 4) :=
  ⟨by decide, claim2_amended_circle_diameter c2_circle 2 4 (by decide)⟩

/-- The raw candidate of `_extract_line_endpoints_canvas`: endpoint fields
taken as absolute canvas coordinates (scaled only). -/
def cand_raw (o : ShapeObj) : Pt × Pt :=
  (⟨o.x1?.getD 0 * o.scaleX?.getD 1, o.y1?.getD 0 * o.scaleY?.getD 1⟩,
   ⟨o.x2?.getD 0 * o.scaleX?.getD 1, o.y2?.getD 0 * o.scaleY?.getD 1⟩)

/-- The candidate with endpoints relative to the object position `left/top`. -/
def cand_rel (o : ShapeObj) : Pt × Pt :=
  (⟨o.left?.getD 0 + o.x1?.getD 0 * o.scaleX?.getD 1,
    o.top?.getD 0 + o.y1?.getD 0 * o.scaleY?.getD 1⟩,
   ⟨o.left?.getD 0 + o.x2?.getD 0 * o.scaleX?.getD 1,
    o.top?.getD 0 + o.y2?.getD 0 * o.scaleY?.getD 1⟩)

/-- The object's center x per the origin flags, as used by the third candidate. -/
def cand_center_x (o : ShapeObj) : ℚ :=
  if lower_str (o.originX?.getD "left") = "center" then o.left?.getD 0
  else o.left?.getD 0 + |o.width?.getD 0 * o.scaleX?.getD 1| / 2

/-- The object's center y per the origin flags, as used by the third candidate. -/
def cand_center_y (o : ShapeObj) : ℚ :=
  if lower_str (o.originY?.getD "top") = "center" then o.top?.getD 0
  else o.top?.getD 0 + |o.height?.getD 0 * o.scaleY?.getD 1| / 2

/-- The candidate with endpoints relative to the object's center. -/
def cand_ctr (o : ShapeObj) : Pt × Pt :=
  (⟨cand_center_x o + o.x1?.getD 0 * o.scaleX?.getD 1,
    cand_center_y o + o.y1?.getD 0 * o.scaleY?.getD 1⟩,
   ⟨cand_center_x o + o.x2?.getD 0 * o.scaleX?.getD 1,
    cand_center_y o + o.y2?.getD 0 * o.scaleY?.getD 1⟩)

lemma line_candidates_expand (o : ShapeObj) :
    line_candidates o = [cand_raw o, cand_rel o, cand_ctr o] := rfl

lemma hypot_congr (a b a' b' : ℚ) (h1 : a = a') (h2 : b = b') :
    hypot a b = hypot a' b' := by
  rw [h1, h2]

lemma cand_len_raw (o : ShapeObj) :
    pair_len (cand_raw o) =
      hypot ((o.x2?.getD 0 - o.x1?.getD 0) * o.scaleX?.getD 1)
        ((o.y2?.getD 0 - o.y1?.getD 0) * o.scaleY?.getD 1) := by
  unfold pair_len cand_raw
  exact hypot_congr _ _ _ _ (by ring) (by ring)

lemma cand_len_rel (o : ShapeObj) : pair_len (cand_rel o) = pair_len (cand_raw o) := by
  unfold pair_len cand_rel cand_raw
  exact hypot_congr _ _ _ _ (by ring) (by ring)

lemma cand_len_ctr (o : ShapeObj) : pair_len (cand_ctr o) = pair_len (cand_raw o) := by
  unfold pair_len cand_ctr cand_raw
  exact hypot_congr _ _ _ _ (by ring) (by ring)

lemma pair_penalty_zero (pr : Pt × Pt) (h1 : -50 ≤ pr.1.x) (h2 : -50 ≤ pr.1.y)
    (h3 : -50 ≤ pr.2.x) (h4 : -50 ≤ pr.2.y) : pair_penalty pr = 0 := by
  unfold pair_penalty
  rw [if_neg fun hc => hc.elim (fun hlt => absurd hlt (not_lt.mpr h1))
        (fun hlt => absurd hlt (not_lt.mpr h2)),
      if_neg fun hc => hc.elim (fun hlt => absurd hlt (not_lt.mpr h3))
        (fun hlt => absurd hlt (not_lt.mpr h4))]
  norm_num

/-- C3: endpoint extraction considers exactly the three candidate endpoint
pairs (absolute; relative to `left/top`; relative to the derived center) and
returns one of them whose score — Euclidean length minus the out-of-canvas
penalty, with degenerate candidates scored `-1e9` — is maximal, and it never
selects a degenerate candidate when a positive-length candidate exists. -/
theorem claim3_endpoint_candidate_selection (o : ShapeObj) :
    extract_line_endpoints_canvas o ∈ line_candidates o ∧
    (∀ c ∈ line_candidates o, pair_score c ≤ pair_score (extract_line_endpoints_canvas o)) ∧
    (∀ c ∈ line_candidates o, 0 < pair_len c →
      0 < pair_len (extract_line_endpoints_canvas o)) := by
  have hdef : extract_line_endpoints_canvas o =
      py_max pair_score (line_candidates o).headI (line_candidates o).tail := rfl
  have hcons : line_candidates o = (line_candidates o).headI :: (line_candidates o).tail := by
    rw [line_candidates_expand]
    rfl
  refine ⟨?_, ?_, ?_⟩
  · rw [hdef, hcons]
    exact py_max_mem _ _ _
  · intro c hc
    rw [hdef]
    exact py_max_le pair_score _ _ c (by rw [← hcons]; exact hc)
  · intro c hc hlen
    by_contra hle
    push_neg at hle
    have hs1 : pair_score (extract_line_endpoints_canvas o) = -(1000000000 : ℝ) :=
      pair_score_of_nonpos _ hle
    have hs2 : pair_score c = pair_len c - (pair_penalty c : ℝ) := pair_score_of_pos _ hlen
    have hmax : pair_score c ≤ pair_score (extract_line_endpoints_canvas o) := by
      rw [hdef]
      exact py_max_le pair_score _ _ c (by rw [← hcons]; exact hc)
    rw [hs1, hs2] at hmax
    have hpen : (pair_penalty c : ℝ) ≤ 400 := by
      exact_mod_cast pair_penalty_le c
    linarith

def c3_shape : ShapeObj :=
  { type? := some "line", x1? := some 0, y1? := some 0, x2? := some 3, y2? := some 4,
    left? := some 10, top? := some 10, width? := some 4, height? := some 4 }

/-- Witness for C3 at a concrete 3-4-5 line whose raw candidate is positive. -/
theorem claim3_endpoint_candidate_selection_witness :
    cand_raw c3_shape ∈ line_candidates c3_shape ∧
    0 < pair_len (cand_raw c3_shape) ∧
    extract_line_endpoints_canvas c3_shape ∈ line_candidates c3_shape ∧
    pair_score (cand_raw c3_shape) ≤ pair_score (extract_line_endpoints_canvas c3_shape) ∧
    0 < pair_len (extract_line_endpoints_canvas c3_shape) := by
  have hmem : cand_raw c3_shape ∈ line_candidates c3_shape := by
    rw [line_candidates_expand]
    exact List.mem_cons_self _ _
  have hpos : 0 < pair_len (cand_raw c3_shape) := by
    rw [cand_len_raw]
    simp only [c3_shape, Option.getD_some, Option.getD_none]
    unfold hypot
    apply Real.sqrt_pos.mpr
    push_cast
    norm_num
  exact ⟨hmem, hpos, (claim3_endpoint_candidate_selection c3_shape).1,
    (claim3_endpoint_candidate_selection c3_shape).2.1 _ hmem,
    (claim3_endpoint_candidate_selection c3_shape).2.2 _ hmem hpos⟩

/-- C6: for a line descriptor whose three candidates all lie inside the
penalty-free region, of positive raw length, the pipeline measurement equals
the Euclidean distance between the raw endpoints after independently scaling
each axis by `scaleX/scaleY` and the canvas-to-source factors — exactly, hence
within the claimed `1e-6` tolerance. -/
theorem claim6_line_convention1_measurement (o : ShapeObj) (sx sy : ℚ)
    (htool : shape_tool o = "line")
    (hin : ∀ c ∈ line_candidates o,
      -50 ≤ (c : Pt × Pt).1.x ∧ -50 ≤ c.1.y ∧ -50 ≤ c.2.x ∧ -50 ≤ c.2.y)
    (hpos : 0 < hypot ((o.x2?.getD 0 - o.x1?.getD 0) * o.scaleX?.getD 1)
      ((o.y2?.getD 0 - o.y1?.getD 0) * o.scaleY?.getD 1)) :
    image_measurement o sx sy =
      hypot ((o.x2?.getD 0 - o.x1?.getD 0) * o.scaleX?.getD 1 * sx)
        ((o.y2?.getD 0 - o.y1?.getD 0) * o.scaleY?.getD 1 * sy) ∧
    |image_measurement o sx sy -
      hypot ((o.x2?.getD 0 - o.x1?.getD 0) * o.scaleX?.getD 1 * sx)
        ((o.y2?.getD 0 - o.y1?.getD 0) * o.scaleY?.getD 1 * sy)| ≤ 1 / 1000000 := by
  have hexp := line_candidates_expand o
  have hposraw : 0 < pair_len (cand_raw o) := by
    rw [cand_len_raw]
    exact hpos
  have hpos2 : 0 < pair_len (cand_rel o) := by
    rw [cand_len_rel]
    exact hposraw
  have hpos3 : 0 < pair_len (cand_ctr o) := by
    rw [cand_len_ctr]
    exact hposraw
  have hmem1 : cand_raw o ∈ line_candidates o := by
    rw [hexp]
    exact List.mem_cons_self _ _
  have hmem2 : cand_rel o ∈ line_candidates o := by
    rw [hexp]
    exact List.mem_cons_of_mem _ (List.mem_cons_self _ _)
  have hmem3 : cand_ctr o ∈ line_candidates o := by
    rw [hexp]
    exact List.mem_cons_of_mem _ (List.mem_cons_of_mem _ (List.mem_cons_self _ _))
  have hp1 := pair_penalty_zero (cand_raw o) (hin _ hmem1).1 (hin _ hmem1).2.1
    (hin _ hmem1).2.2.1 (hin _ hmem1).2.2.2
  have hp2 := pair_penalty_zero (cand_rel o) (hin _ hmem2).1 (hin _ hmem2).2.1
    (hin _ hmem2).2.2.1 (hin _ hmem2).2.2.2
  have hp3 := pair_penalty_zero (cand_ctr o) (hin _ hmem3).1 (hin _ hmem3).2.1
    (hin _ hmem3).2.2.1 (hin _ hmem3).2.2.2
  have hs1 : pair_score (cand_raw o) = pair_len (cand_raw o) := by
    rw [pair_score_of_pos _ hposraw, hp1]
    norm_num
  have hs2 : pair_score (cand_rel o) = pair_len (cand_raw o) := by
    rw [pair_score_of_pos _ hpos2, hp2, cand_len_rel]
    norm_num
  have hs3 : pair_score (cand_ctr o) = pair_len (cand_raw o) := by
    rw [pair_score_of_pos _ hpos3, hp3, cand_len_ctr]
    norm_num
  have hsel : extract_line_endpoints_canvas o = cand_raw o := by
    have hdef : extract_line_endpoints_canvas o =
        py_max pair_score (line_candidates o).headI (line_candidates o).tail := rfl
    rw [hdef, hexp]
    exact py_max_pair pair_score _ _ _ (le_of_eq (hs2.trans hs1.symm))
      (le_of_eq (hs3.trans hs1.symm))
  have hg : extract_geometry o = some (.line (cand_raw o).1.x (cand_raw o).1.y
      (cand_raw o).2.x (cand_raw o).2.y) := by
    simp only [extract_geometry]
    rw [htool, if_pos rfl, hsel]
  have h1 : image_measurement o sx sy =
      hypot ((o.x2?.getD 0 - o.x1?.getD 0) * o.scaleX?.getD 1 * sx)
        ((o.y2?.getD 0 - o.y1?.getD 0) * o.scaleY?.getD 1 * sy) := by
    rw [image_measurement, hg]
    simp only [geometry_to_image_space, compute_measurement]
    unfold cand_raw
    exact hypot_congr _ _ _ _ (by ring) (by ring)
  refine ⟨h1, ?_⟩
  rw [h1]
  simp only [sub_self, abs_zero]
  norm_num

def c6_shape : ShapeObj :=
  { type? := some "line", x1? := some 0, y1? := some 0, x2? := some 3, y2? := some 4,
    left? := some 10, top? := some 10, width? := some 4, height? := some 4 }

/-- Witness for C6 at a concrete 3-4-5 line with all candidates in-canvas. -/
theorem claim6_line_convention1_measurement_witness :
    shape_tool c6_shape = "line" ∧
    (∀ c ∈ line_candidates c6_shape,
      -50 ≤ (c : Pt × Pt).1.x ∧ -50 ≤ c.1.y ∧ -50 ≤ c.2.x ∧ -50 ≤ c.2.y) ∧
    0 < hypot ((c6_shape.x2?.getD 0 - c6_shape.x1?.getD 0) * c6_shape.scaleX?.getD 1)
      ((c6_shape.y2?.getD 0 - c6_shape.y1?.getD 0) * c6_shape.scaleY?.getD 1) ∧
    (image_measurement c6_shape 1 1 =
      hypot ((c6_shape.x2?.getD 0 - c6_shape.x1?.getD 0) * c6_shape.scaleX?.getD 1 * 1)
        ((c6_shape.y2?.getD 0 - c6_shape.y1?.getD 0) * c6_shape.scaleY?.getD 1 * 1) ∧
    |image_measurement c6_shape 1 1 -
      hypot ((c6_shape.x2?.getD 0 - c6_shape.x1?.getD 0) * c6_shape.scaleX?.getD 1 * 1)
        ((c6_shape.y2?.getD 0 - c6_shape.y1?.getD 0) * c6_shape.scaleY?.getD 1 * 1)| ≤
      1 / 1000000) := by
  have h1 : shape_tool c6_shape = "line" := by decide
  have hraw : cand_raw c6_shape = ((⟨0, 0⟩, ⟨3, 4⟩) : Pt × Pt) := by
    simp only [cand_raw, c6_shape, Option.getD_some, Option.getD_none]
    norm_num
  have hrel : cand_rel c6_shape = ((⟨10, 10⟩, ⟨13, 14⟩) : Pt × Pt) := by
    simp only [cand_rel, c6_shape, Option.getD_some, Option.getD_none]
    norm_num
  have hctr : cand_ctr c6_shape = ((⟨12, 12⟩, ⟨15, 16⟩) : Pt × Pt) := by
    simp only [cand_ctr, cand_center_x, cand_center_y, c6_shape, Option.getD_some,
      Option.getD_none]
    rw [if_neg (by decide : ¬(lower_str "left" = "center")),
      if_neg (by decide : ¬(lower_str "top" = "center"))]
    norm_num
  have h2 : ∀ c ∈ line_candidates c6_shape,
      -50 ≤ (c : Pt × Pt).1.x ∧ -50 ≤ c.1.y ∧ -50 ≤ c.2.x ∧ -50 ≤ c.2.y := by
    rw [line_candidates_expand, hraw, hrel, hctr]
    intro c hc
    fin_cases hc <;> norm_num
  have h3 : 0 < hypot ((c6_shape.x2?.getD 0 - c6_shape.x1?.getD 0) * c6_shape.scaleX?.getD 1)
      ((c6_shape.y2?.getD 0 - c6_shape.y1?.getD 0) * c6_shape.scaleY?.getD 1) := by
    simp only [c6_shape, Option.getD_some, Option.getD_none]
    unfold hypot
    apply Real.sqrt_pos.mpr
    push_cast
    norm_num
  exact ⟨h1, h2, h3, claim6_line_convention1_measurement c6_shape 1 1 h1 h2 h3⟩

/-- Witness for C8: the same single-shape scenario, with a well-formed store. -/
theorem claim8_no_orphan_labels_witness :
    (∀ kv ∈ c1_labels, (kv : String × Label).2.forShapeId = kv.1) ∧
    ((∀ kv ∈ (reconcile c1_cfg [c1_shape] c1_labels).labels,
       (kv : String × Label).2.forShapeId = kv.1 ∧
       kv.2.forShapeId ∈ (reconcile c1_cfg [c1_shape] c1_labels).current_shape_ids ∧
       ∃ m ∈ (reconcile c1_cfg [c1_shape] c1_labels).measurements,
         (m : Meas).shape_id = kv.2.forShapeId) ∧
    (∀ sid, sid ∉ (reconcile c1_cfg [c1_shape] c1_labels).current_shape_ids →
       ∀ kv ∈ (reconcile c1_cfg [c1_shape] c1_labels).labels,
         (kv : String × Label).2.forShapeId ≠ sid)) :=
  ⟨by decide, claim8_no_orphan_labels c1_cfg [c1_shape] c1_labels (by decide)⟩

end Meettool
